import Mathlib

/-!
Verification of the execution-control core of the LLM brand-visibility
tracking service (backend-llm): circuit breaker, rate limiter scheduling,
batch orchestration (run creation, idempotency/dedup gate, unit retry
loop, final status and metrics), and the retry backoff policy.

Each definition is a shallow embedding of the corresponding TypeScript
source.  `Date.now()` inside one synchronous handler is modelled as a
single instant passed as a `Nat` millisecond timestamp.  Map objects are
modelled as association lists, Mongo documents as Lean structures, and
asynchronous flows as explicit state passing.
-/

namespace CircuitBreaker

/-- `CircuitState` from `circuit-breaker-module/index.ts`. -/
inductive CircuitState where
  | CLOSED
  | OPEN
  | HALF_OPEN
deriving DecidableEq, Repr

/-- `CircuitBreakerConfig` (all fields resolved). -/
structure CircuitBreakerConfig where
  failureThreshold : Nat
  successThreshold : Nat
  timeout : Nat
  windowSize : Nat
deriving DecidableEq, Repr

/-- The `Partial<CircuitBreakerConfig>` argument of `registerCircuit`. -/
structure PartialConfig where
  failureThreshold : Option Nat := none
  successThreshold : Option Nat := none
  timeout : Option Nat := none
  windowSize : Option Nat := none
deriving DecidableEq, Repr

/-- `CircuitStats` record for one service. -/
structure CircuitStats where
  failures : Nat
  successes : Nat
  lastFailureTime : Option Nat
  state : CircuitState
deriving DecidableEq, Repr

/-- The `CircuitBreakerService` fields: `circuits` and `configs` maps. -/
structure Service where
  circuits : List (String × CircuitStats)
  configs : List (String × CircuitBreakerConfig)
deriving DecidableEq, Repr

/-- Empty service (fresh `CircuitBreakerService` instance). -/
def Service.empty : Service := ⟨[], []⟩

/-- `Map.set` on an association list: replace the binding if present,
else append. -/
def setAssoc {α : Type} (m : List (String × α)) (k : String) (v : α) :
    List (String × α) :=
  match m with
  | [] => [(k, v)]
  | (k', v') :: rest =>
      if k' = k then (k, v) :: rest else (k', v') :: setAssoc rest k v

/-- `registerCircuit(serviceName, config)`: spread the defaults
`{failureThreshold: 5, successThreshold: 2, timeout: 60000,
windowSize: 120000}` under the partial config and store a fresh
closed circuit. -/
def registerCircuit (svc : Service) (name : String) (cfg : PartialConfig) :
    Service :=
  let resolved : CircuitBreakerConfig :=
    { failureThreshold := cfg.failureThreshold.getD 5
      successThreshold := cfg.successThreshold.getD 2
      timeout := cfg.timeout.getD 60000
      windowSize := cfg.windowSize.getD 120000 }
  { circuits := setAssoc svc.circuits name
      { failures := 0, successes := 0, lastFailureTime := none,
        state := CircuitState.CLOSED }
    configs := setAssoc svc.configs name resolved }

/-- `onSuccess(serviceName)`. -/
def onSuccess (svc : Service) (name : String) : Service :=
  match svc.circuits.lookup name, svc.configs.lookup name with
  | some circuit, some config =>
      if circuit.state = CircuitState.HALF_OPEN then
        let circuit := { circuit with successes := circuit.successes + 1 }
        let circuit :=
          if circuit.successes ≥ config.successThreshold then
            { circuit with
              state := CircuitState.CLOSED
              failures := 0
              successes := 0 }
          else circuit
        { svc with circuits := setAssoc svc.circuits name circuit }
      else if circuit.state = CircuitState.CLOSED then
        let circuit := { circuit with failures := 0 }
        { svc with circuits := setAssoc svc.circuits name circuit }
      else svc
  | _, _ => svc

/-- `onFailure(serviceName)` at instant `now`.  Mirrors the source order:
`lastFailureTime` is assigned `Date.now()` first, then the window check
compares `now` against the just-updated `lastFailureTime`. -/
def onFailure (svc : Service) (name : String) (now : Nat) : Service :=
  match svc.circuits.lookup name, svc.configs.lookup name with
  | some circuit, some config =>
      let circuit := { circuit with lastFailureTime := some now }
      let circuit :=
        if circuit.state = CircuitState.HALF_OPEN then
          { circuit with
            state := CircuitState.OPEN
            failures := 0
            successes := 0 }
        else if circuit.state = CircuitState.CLOSED then
          let c := { circuit with failures := circuit.failures + 1 }
          let c :=
            if now - (c.lastFailureTime.getD 0) > config.windowSize then
              { c with failures := 1 }
            else c
          if c.failures ≥ config.failureThreshold then
            { c with state := CircuitState.OPEN }
          else c
        else circuit
      { svc with circuits := setAssoc svc.circuits name circuit }
  | _, _ => svc

/-- Result of `execute`: the operation's value, the operation's own error
(rethrown transparently), or the fail-fast "circuit breaker is OPEN"
error. -/
inductive ExecResult (E A : Type) where
  | ok : A → ExecResult E A
  | opError : E → ExecResult E A
  | circuitOpen : ExecResult E A
deriving DecidableEq, Repr

/-- Outcome of one `execute` call: its result, the updated service state,
and whether the wrapped operation was invoked. -/
structure ExecOutcome (E A : Type) where
  result : ExecResult E A
  svc : Service
  invoked : Bool
deriving DecidableEq, Repr

/-- The try/catch body of `execute`: run the operation, record success or
failure, return or rethrow transparently. -/
def runOp {E A : Type} (svc : Service) (name : String) (now : Nat)
    (op : Except E A) : ExecOutcome E A :=
  match op with
  | Except.ok a => ⟨ExecResult.ok a, onSuccess svc name, true⟩
  | Except.error e => ⟨ExecResult.opError e, onFailure svc name now, true⟩

/-- `execute(serviceName, fn)` at instant `now`, with the operation's
behaviour given by `op`. -/
def execute {E A : Type} (svc : Service) (name : String) (now : Nat)
    (op : Except E A) : ExecOutcome E A :=
  match svc.circuits.lookup name, svc.configs.lookup name with
  | some circuit, some config =>
      if circuit.state = CircuitState.OPEN then
        let timeSinceLastFailure := now - (circuit.lastFailureTime.getD 0)
        if timeSinceLastFailure ≥ config.timeout then
          let circuit :=
            { circuit with state := CircuitState.HALF_OPEN, successes := 0 }
          let svc' :=
            { svc with circuits := setAssoc svc.circuits name circuit }
          runOp svc' name now op
        else
          ⟨ExecResult.circuitOpen, svc, false⟩
      else
        runOp svc name now op
  | _, _ =>
      match op with
      | Except.ok a => ⟨ExecResult.ok a, svc, true⟩
      | Except.error e => ⟨ExecResult.opError e, svc, true⟩

/-- `getState(serviceName)`: state of the registered circuit, or `CLOSED`
when none is registered. -/
def getState (svc : Service) (name : String) : CircuitState :=
  ((svc.circuits.lookup name).map CircuitStats.state).getD CircuitState.CLOSED

/-- Transparent pass-through of the operation's own outcome: its value,
or its error rethrown. -/
def transparentResult {E A : Type} : Except E A → ExecResult E A
  | Except.ok a => ExecResult.ok a
  | Except.error e => ExecResult.opError e

/-- Fold a list of failure instants through `execute` with a failing
operation (the provider call fails at each instant). -/
def applyFailures (svc : Service) (name : String) : List Nat → Service
  | [] => svc
  | t :: ts =>
      applyFailures (execute (E := Unit) (A := Unit) svc name t
        (Except.error ())).svc name ts

end CircuitBreaker

namespace RateLimiter

/-- Observable outcome of `scheduleWithDistributedLimit` over a finite
trace of admission decisions: either `fn` ran after the recorded waits
(one entry per denial, in ms), or the observed trace ended with every
attempt denied and the call still waiting to retry (the source recurses
without bound, so within the trace no error is ever produced and `fn`
is not executed). -/
inductive SchedOutcome (A : Type) where
  | ran : List Nat → A → SchedOutcome A
  | stillDenied : List Nat → SchedOutcome A
deriving DecidableEq, Repr

/-- The recursive denial loop of `scheduleWithDistributedLimit`: each
denied `tryConsume` waits `1000` ms (`setTimeout(resolve, 1000)`) and
recurses; an allowed consumption delegates to the local limiter, whose
`schedule` resolves with `fn`'s own outcome. `waits` accumulates the
delays already slept. -/
def schedAux {A : Type} (waits : List Nat) (fnResult : A) :
    List Bool → SchedOutcome A
  | [] => SchedOutcome.stillDenied waits
  | allowed :: rest =>
      if allowed then SchedOutcome.ran waits fnResult
      else schedAux (waits ++ [1000]) fnResult rest

/-- `scheduleWithDistributedLimit(limiterName, fn)`: the distributed
check runs only when `useDistributed` holds and a distributed limiter is
registered for the name; otherwise the call goes straight to the local
limiter. `admissions` is the trace of successive `tryConsume` results. -/
def scheduleWithDistributedLimit {A : Type} (useDistributed : Bool)
    (hasLimiter : Bool) (admissions : List Bool) (fnResult : A) :
    SchedOutcome A :=
  if useDistributed && hasLimiter then schedAux [] fnResult admissions
  else SchedOutcome.ran [] fnResult

/-- Whether the scheduling outcome actually executed `fn`. -/
def SchedOutcome.fnExecuted {A : Type} : SchedOutcome A → Bool
  | SchedOutcome.ran _ _ => true
  | SchedOutcome.stillDenied _ => false

end RateLimiter

namespace Backoff

/-- The capped exponential base delay of the unit retry loop
(`llm-visibility.service.ts`, retry branch of `processPromptModelPair`):
`Math.min(1000 * Math.pow(2, retryCount - 1), 10000)`. -/
def baseDelay (attempt : Nat) : ℚ := min (1000 * 2 ^ (attempt - 1)) 10000

/-- Full retry delay: base delay plus the jitter drawn from
`Math.random() * 1000`, i.e. uniform over `[0, 1000)`. -/
def delay (attempt : Nat) (jitter : ℚ) : ℚ := baseDelay attempt + jitter

end Backoff

namespace Orchestrator

/-- Batch ("Run") status. `partialRun` models the source status string
value for a partially completed run. -/
inductive RunStatus where
  | pending
  | running
  | completed
  | partialRun
  | failed
deriving DecidableEq, Repr

/-- A terminal batch status. -/
def RunStatus.isTerminal : RunStatus → Bool
  | RunStatus.completed => true
  | RunStatus.partialRun => true
  | RunStatus.failed => true
  | _ => false

/-- The normalized content whose JSON the service hashes with sha256 in
`generateContentHash`: sorted prompts, sorted brands, and models sorted
by their `provider:model` key.  The hash function is injective on this
abstraction (collisions are below the modelling level), so the
fingerprint is modelled by the normalized content itself. -/
structure ContentKey where
  prompts : List String
  brands : List String
  models : List (String × String)
deriving DecidableEq, Repr

/-- `CreateRunDto` (the fields the dedup gate and creation consume).
A model is a `(provider, model)` pair. -/
structure CreateRunDto where
  prompts : List String
  brands : List String
  models : List (String × String)
  idempotencyKey : Option String
deriving DecidableEq, Repr

/-- `generateContentHash(dto)`: sort each component (string sorting
models the JS code-unit/localeCompare order at the level the claims
need: a fixed total order). -/
def generateContentHash (dto : CreateRunDto) : ContentKey :=
  { prompts := List.insertionSort (· ≤ ·) dto.prompts
    brands := List.insertionSort (· ≤ ·) dto.brands
    models := List.insertionSort
      (fun a b => a.1 ++ ":" ++ a.2 ≤ b.1 ++ ":" ++ b.2) dto.models }

/-- A persisted run document (the fields the claims touch). -/
structure RunDoc where
  id : Nat
  idempotencyKey : Option String
  contentHash : ContentKey
  status : RunStatus
  createdAt : Nat
  totalPrompts : Nat
  completedPrompts : Nat
  failedPrompts : Nat
deriving DecidableEq, Repr

/-- `RunRepository.findByIdempotencyKey`: `findOne({idempotencyKey:
key})`. -/
def findByIdempotencyKey (store : List RunDoc) (k : String) :
    Option RunDoc :=
  store.find? (fun r => r.idempotencyKey = some k)

/-- The status filter of `RunRepository.findByContentHash`:
`status ∈ {pending, running, completed, partial}` (the terminal
`failed` status is excluded). -/
def statusNonFailed (s : RunStatus) : Bool :=
  s = RunStatus.pending || s = RunStatus.running ||
    s = RunStatus.completed || s = RunStatus.partialRun

/-- `findOne` after `sort({createdAt: -1})`: the candidate with the
greatest `createdAt`; a stable descending sort keeps the earliest-stored
document among ties. -/
def pickLatest : Option RunDoc → List RunDoc → Option RunDoc
  | acc, [] => acc
  | none, r :: rs => pickLatest (some r) rs
  | some b, r :: rs =>
      pickLatest (some (if b.createdAt < r.createdAt then r else b)) rs

/-- `RunRepository.findByContentHash(hash)`. -/
def findByContentHash (store : List RunDoc) (h : ContentKey) :
    Option RunDoc :=
  pickLatest none
    (store.filter (fun r => r.contentHash = h && statusNonFailed r.status))

/-- JS truthiness of `dto.idempotencyKey`: the key check runs only for a
present, non-empty string. -/
def keyTruthy : Option String → Bool
  | none => false
  | some s => s ≠ ""

/-- Result of a `createRun` call: the returned run and `isNew` flag, the
store afterwards, and whether background processing (`processRun`) was
scheduled. -/
structure CreateRunResult where
  run : RunDoc
  isNew : Bool
  store : List RunDoc
  scheduled : Bool
deriving DecidableEq, Repr

/-- Creation branch of `createRun`: persist a fresh pending run (counts
zero, `totalPrompts = |prompts| * |models|`) and schedule processing. -/
def createNewRun (store : List RunDoc) (nextId now : Nat)
    (dto : CreateRunDto) (h : ContentKey) : CreateRunResult :=
  let run : RunDoc :=
    { id := nextId
      idempotencyKey := dto.idempotencyKey
      contentHash := h
      status := RunStatus.pending
      createdAt := now
      totalPrompts := dto.prompts.length * dto.models.length
      completedPrompts := 0
      failedPrompts := 0 }
  { run := run, isNew := true, store := store ++ [run], scheduled := true }

/-- The idempotency-key lookup step of `createRun`: run only when the
key is truthy. -/
def keyLookup (store : List RunDoc) (dto : CreateRunDto) : Option RunDoc :=
  if keyTruthy dto.idempotencyKey then
    findByIdempotencyKey store (dto.idempotencyKey.getD "")
  else none

/-- `createRun(dto)` at instant `now` against the current `store`.
The freshness test `(Date.now() - createdAt) / 60000 < 5` is the
millisecond comparison `now - createdAt < 300000`. -/
def createRun (store : List RunDoc) (nextId now : Nat)
    (dto : CreateRunDto) : CreateRunResult :=
  match keyLookup store dto with
  | some existing =>
      { run := existing, isNew := false, store := store, scheduled := false }
  | none =>
      let contentHash := generateContentHash dto
      match findByContentHash store contentHash with
      | some recentDuplicate =>
          if now - recentDuplicate.createdAt < 300000 then
            { run := recentDuplicate, isNew := false, store := store
              scheduled := false }
          else createNewRun store nextId now dto contentHash
      | none => createNewRun store nextId now dto contentHash

/-- The normalized provider response consumed by the orchestrator:
`{latencyMs, tokenUsage?.totalTokens}`. -/
structure LLMResp where
  latencyMs : Nat
  totalTokens : Option Nat
deriving DecidableEq, Repr

/-- Classification of a provider-call failure.  The source retry loop
catches every error uniformly; the classification exists so theorems can
speak about rate-limit signals explicitly. -/
inductive ProviderError where
  | rateLimit
  | other (msg : String)
deriving DecidableEq, Repr

/-- Terminal record of one unit of work, as persisted by
`processPromptModelPair`: a success response (latency, tokens, retry
count at success) or a failed response (stored with
`retryCount: maxRetries`). -/
inductive UnitOutcome where
  | success (latencyMs tokens retryCount : Nat)
  | failed (retryCount : Nat)
deriving DecidableEq, Repr

def UnitOutcome.isSuccess : UnitOutcome → Bool
  | UnitOutcome.success _ _ _ => true
  | UnitOutcome.failed _ => false

/-- The `while (retryCount <= maxRetries)` loop of
`processPromptModelPair`.  `attempts i` is the outcome of the `i`-th
provider call (through the rate-limiter/circuit-breaker stack); every
caught error — rate-limit signals included — increments `retryCount`
and retries after the backoff delay.  `fuel` counts the remaining loop
iterations. -/
def runUnitGo (attempts : Nat → Except ProviderError LLMResp)
    (maxRetries : Nat) : Nat → Nat → UnitOutcome
  | 0, _ => UnitOutcome.failed maxRetries
  | fuel + 1, retryCount =>
      match attempts retryCount with
      | Except.ok resp =>
          UnitOutcome.success resp.latencyMs (resp.totalTokens.getD 0)
            retryCount
      | Except.error _ => runUnitGo attempts maxRetries fuel (retryCount + 1)

/-- `processPromptModelPair`: attempts run at `retryCount = 0, 1, ...,
maxRetries` (so `maxRetries + 1` provider calls at most). -/
def processPromptModelPair (attempts : Nat → Except ProviderError LLMResp)
    (maxRetries : Nat) : UnitOutcome :=
  runUnitGo attempts maxRetries (maxRetries + 1) 0

/-- The fan-out of `processRun`: one unit of work per (prompt, model)
pair. -/
def mkUnits {α β : Type} : List α → List β → List (α × β)
  | [], _ => []
  | p :: ps, ms => ms.map (fun m => (p, m)) ++ mkUnits ps ms

end Orchestrator

namespace Orchestrator

/-- Latencies pushed into the shared `latencies` array: one entry per
successful unit (pushed right after the provider call succeeds). -/
def latenciesOf (outcomes : List UnitOutcome) : List Nat :=
  outcomes.filterMap fun o =>
    match o with
    | UnitOutcome.success l _ _ => some l
    | UnitOutcome.failed _ => none

/-- `totalTokens` accumulation: each unit task adds its returned token
count (successes return `tokenUsage?.totalTokens || 0`, failures return
`0`, and adding `0` is a no-op either way). -/
def totalTokensOf (outcomes : List UnitOutcome) : Nat :=
  (outcomes.map fun o =>
    match o with
    | UnitOutcome.success _ t _ => t
    | UnitOutcome.failed _ => 0).sum

/-- The per-model cost table of `estimateCost`, with the `|| 0.000001`
fallback for unknown models. -/
def costPerToken (model : String) : ℚ :=
  if model = "gpt-4o-mini" then 0.00000015
  else if model = "gpt-4o" then 0.000005
  else if model = "gpt-3.5-turbo" then 0.0000005
  else if model = "claude-3-5-sonnet-20241022" then 0.000003
  else if model = "claude-3-5-haiku-20241022" then 0.0000008
  else 0.000001

/-- `estimateCost(totalTokens, models)`: tokens times the mean per-model
rate (a `(provider, model)` pair contributes `costPerToken model`). -/
def estimateCost (totalTokens : Nat) (models : List (String × String)) :
    ℚ :=
  let avgCost :=
    (models.map (fun m => costPerToken m.2)).sum / (models.length : ℚ)
  (totalTokens : ℚ) * avgCost

/-- Aggregate metrics written by `updateMetrics` at the end of
`processRun`. `avgLatencyMs` is `Math.round` of the mean latency
(`0` when no unit succeeded). -/
structure RunMetrics where
  totalDurationMs : Nat
  avgLatencyMs : ℤ
  totalTokensUsed : Nat
  estimatedCost : ℚ
deriving DecidableEq, Repr

/-- The terminal `updateProgress` + `updateMetrics` pair at the end of
`processRun`. -/
structure FinalUpdate where
  status : RunStatus
  completedPrompts : Nat
  failedPrompts : Nat
  metrics : RunMetrics
deriving DecidableEq, Repr

/-- Tail of `processRun` after `Promise.allSettled`: count successes and
failures over the run's stored responses (exactly one per unit), derive
the batch status (`completed` / `partial` / `failed`), and compute the
aggregate metrics. -/
def finalizeRun (outcomes : List UnitOutcome) (durationMs : Nat)
    (models : List (String × String)) : FinalUpdate :=
  let successCount := (outcomes.filter UnitOutcome.isSuccess).length
  let failedCount :=
    (outcomes.filter (fun o => !o.isSuccess)).length
  let latencies := latenciesOf outcomes
  let avgLatency : ℚ :=
    if 0 < latencies.length then
      ((latencies.map (Nat.cast)).sum : ℚ) / (latencies.length : ℚ)
    else 0
  let totalTokens := totalTokensOf outcomes
  { status :=
      if failedCount = 0 then RunStatus.completed
      else if failedCount < outcomes.length then RunStatus.partialRun
      else RunStatus.failed
    completedPrompts := successCount
    failedPrompts := failedCount
    metrics :=
      { totalDurationMs := durationMs
        avgLatencyMs := round avgLatency
        totalTokensUsed := totalTokens
        estimatedCost := estimateCost totalTokens models } }

/-- Client-observable counters of one batch at one point in time. -/
structure RunSnapshot where
  status : RunStatus
  totalPrompts : Nat
  completedPrompts : Nat
  failedPrompts : Nat
deriving DecidableEq, Repr

/-- The successive persisted states of one batch: created `pending` with
zero counters, marked `running` by `processRun`, then the terminal
progress update once every unit has settled.  `behavior u i` is the
result of the `i`-th provider attempt of unit `u`. -/
def runLifecycle (prompts : List String) (models : List (String × String))
    (behavior : String × (String × String) →
      Nat → Except ProviderError LLMResp)
    (maxRetries durationMs : Nat) : List RunSnapshot :=
  let total := prompts.length * models.length
  let outcomes := (mkUnits prompts models).map
    (fun u => processPromptModelPair (behavior u) maxRetries)
  let fin := finalizeRun outcomes durationMs models
  [ { status := RunStatus.pending, totalPrompts := total
      completedPrompts := 0, failedPrompts := 0 }
  , { status := RunStatus.running, totalPrompts := total
      completedPrompts := 0, failedPrompts := 0 }
  , { status := fin.status, totalPrompts := total
      completedPrompts := fin.completedPrompts
      failedPrompts := fin.failedPrompts } ]

end Orchestrator

/-! ### Association-list helper lemmas -/

namespace CircuitBreaker

theorem lookup_setAssoc_self {α : Type} (m : List (String × α)) (k : String)
    (v : α) : (setAssoc m k v).lookup k = some v := by
  induction m with
  | nil => simp [setAssoc, List.lookup]
  | cons hd tl ih =>
      obtain ⟨k', v'⟩ := hd
      by_cases hkk : k' = k
      · simp [setAssoc, hkk, List.lookup]
      · simp only [setAssoc, if_neg hkk, List.lookup, ih]
        rw [show (k == k') = false by simp [Ne.symm hkk]]

theorem lookup_setAssoc_ne {α : Type} (m : List (String × α)) (k k' : String)
    (v : α) (h : k' ≠ k) : (setAssoc m k v).lookup k' = m.lookup k' := by
  induction m with
  | nil =>
      simp only [setAssoc, List.lookup]
      rw [show (k' == k) = false by simp [h]]
  | cons hd tl ih =>
      obtain ⟨k₀, v₀⟩ := hd
      by_cases hkk : k₀ = k
      · subst hkk
        simp only [setAssoc, if_pos rfl, List.lookup]
        rw [show (k' == k₀) = false by simp [h]]
      · simp only [setAssoc, if_neg hkk, List.lookup, ih]

end CircuitBreaker

/-! ### Rate-limiter scheduling lemmas -/

namespace RateLimiter

theorem schedAux_denied_then_allowed {A : Type} (x : A) :
    ∀ (n : Nat) (waits : List Nat),
      schedAux waits x (List.replicate n false ++ [true]) =
        SchedOutcome.ran (waits ++ List.replicate n 1000) x := by
  intro n
  induction n with
  | zero => intro waits; simp [schedAux]
  | succ n ih =>
      intro waits
      rw [List.replicate_succ, List.cons_append]
      show schedAux (waits ++ [1000]) x (List.replicate n false ++ [true]) =
        SchedOutcome.ran (waits ++ List.replicate (n + 1) 1000) x
      rw [ih (waits ++ [1000])]
      simp [List.replicate_succ]

theorem schedAux_all_denied {A : Type} (x : A) :
    ∀ (n : Nat) (waits : List Nat),
      schedAux waits x (List.replicate n false) =
        SchedOutcome.stillDenied (waits ++ List.replicate n 1000) := by
  intro n
  induction n with
  | zero => intro waits; simp [schedAux]
  | succ n ih =>
      intro waits
      rw [List.replicate_succ]
      show schedAux (waits ++ [1000]) x (List.replicate n false) =
        SchedOutcome.stillDenied (waits ++ List.replicate (n + 1) 1000)
      rw [ih (waits ++ [1000])]
      simp [List.replicate_succ]

end RateLimiter

/-- C1 (counterexample): the claim entails a retry bound `B` past which a
persistently denied call fails without executing `fn`; but for every
number `n` of leading denials `scheduleWithDistributedLimit` still
executes `fn` as soon as one attempt is admitted — there is no bound
and no "rate limit exhausted" failure. -/
theorem c1_no_retry_bound :
    ¬ ∃ B : Nat, ∀ n : Nat, B < n →
      (RateLimiter.scheduleWithDistributedLimit true true
          (List.replicate n false ++ [true]) 0).fnExecuted = false := by
  rintro ⟨B, h⟩
  have h1 := h (B + 1) (Nat.lt_succ_self B)
  rw [show RateLimiter.scheduleWithDistributedLimit true true
        (List.replicate (B + 1) false ++ [true]) 0 =
      RateLimiter.schedAux [] 0 (List.replicate (B + 1) false ++ [true])
      from rfl,
    RateLimiter.schedAux_denied_then_allowed 0 (B + 1) []] at h1
  simp [RateLimiter.SchedOutcome.fnExecuted] at h1

/-- C1 (amended): when a distributed limiter is registered for the key,
each denial waits a fixed 1000 ms and consumption is retried recursively
without any retry bound: after `n` denials followed by an admission,
`fn` executes, having waited `n` times 1000 ms (no exponential growth,
no jitter); while every attempt is denied `fn` never executes and no
"rate limit exhausted" error arises — the call just keeps retrying. -/
theorem c1_fixed_backoff_unbounded_retry (n : Nat) (x : Nat) :
    RateLimiter.scheduleWithDistributedLimit true true
        (List.replicate n false ++ [true]) x =
      RateLimiter.SchedOutcome.ran (List.replicate n 1000) x ∧
    RateLimiter.scheduleWithDistributedLimit true true
        (List.replicate n false) x =
      RateLimiter.SchedOutcome.stillDenied (List.replicate n 1000) := by
  constructor
  · rw [show RateLimiter.scheduleWithDistributedLimit true true
          (List.replicate n false ++ [true]) x =
        RateLimiter.schedAux [] x (List.replicate n false ++ [true]) from rfl,
      RateLimiter.schedAux_denied_then_allowed x n []]
    simp
  · rw [show RateLimiter.scheduleWithDistributedLimit true true
          (List.replicate n false) x =
        RateLimiter.schedAux [] x (List.replicate n false) from rfl,
      RateLimiter.schedAux_all_denied x n []]
    simp

/-- C10: `getState` on a name with no registered circuit returns
`CLOSED`, the same value a freshly registered (healthy) circuit reports,
so the two are indistinguishable through `getState`. -/
theorem c10_getState_unregistered_closed (svc : CircuitBreaker.Service)
    (name : String) (h : svc.circuits.lookup name = none) :
    CircuitBreaker.getState svc name = CircuitBreaker.CircuitState.CLOSED ∧
    (∀ (svc' : CircuitBreaker.Service) (cfg : CircuitBreaker.PartialConfig),
      CircuitBreaker.getState (CircuitBreaker.registerCircuit svc' name cfg)
        name = CircuitBreaker.CircuitState.CLOSED) := by
  constructor
  · simp [CircuitBreaker.getState, h]
  · intro svc' cfg
    simp [CircuitBreaker.getState, CircuitBreaker.registerCircuit,
      CircuitBreaker.lookup_setAssoc_self]

/-- Witness for C10 at the empty service and the name "openai". -/
theorem c10_witness :
    CircuitBreaker.Service.empty.circuits.lookup "openai" = none ∧
    CircuitBreaker.getState CircuitBreaker.Service.empty "openai" =
      CircuitBreaker.CircuitState.CLOSED :=
  ⟨by decide,
    (c10_getState_unregistered_closed CircuitBreaker.Service.empty "openai"
      (by decide)).1⟩

/-- C3 (code bug): with `failureThreshold = 2` and the default
`windowSize = 120000`, two failures 250000 ms apart — far more than the
failure window — still accumulate to `failures = 2` and open the
circuit: the window reset (`failures = 1`) is dead code, because
`lastFailureTime` is set to the current instant before the age check
compares against it. -/
theorem c3_window_reset_dead :
    ((CircuitBreaker.execute (E := Unit) (A := Unit)
        ((CircuitBreaker.execute (E := Unit) (A := Unit)
          (CircuitBreaker.registerCircuit CircuitBreaker.Service.empty
            "openai" { failureThreshold := some 2 })
          "openai" 0 (Except.error ())).svc)
        "openai" 250000 (Except.error ())).svc).circuits.lookup "openai" =
      some { failures := 2, successes := 0, lastFailureTime := some 250000,
             state := CircuitBreaker.CircuitState.OPEN } := by
  decide

/-! ### Backoff policy lemmas -/

namespace Backoff

theorem baseDelay_nonneg (n : Nat) : 0 ≤ baseDelay n := by
  unfold baseDelay
  apply le_min
  · positivity
  · norm_num

theorem baseDelay_eq_of_lt_cap (n : Nat) (h : baseDelay n < 10000) :
    baseDelay n = 1000 * 2 ^ (n - 1) := by
  rcases min_lt_iff.mp h with h' | h'
  · exact min_eq_left (le_of_lt h')
  · exact absurd h' (lt_irrefl _)

theorem pow_le_eight_of_lt_cap (n : Nat) (h : baseDelay n < 10000) :
    (2 : ℚ) ^ (n - 1) ≤ 8 := by
  have h1 : (1000 : ℚ) * 2 ^ (n - 1) < 10000 := by
    have := baseDelay_eq_of_lt_cap n h
    rw [this] at h
    exact h
  have h2 : (2 : ℚ) ^ (n - 1) < 10 := by linarith
  have h3 : ((2 ^ (n - 1) : ℕ) : ℚ) < ((10 : ℕ) : ℚ) := by push_cast; exact h2
  have h4 : (2 : ℕ) ^ (n - 1) < 10 := Nat.cast_lt.mp h3
  have h5 : n - 1 ≤ 3 := by
    by_contra hc
    push_neg at hc
    have : (2 : ℕ) ^ 4 ≤ 2 ^ (n - 1) := Nat.pow_le_pow_right (by norm_num) hc
    norm_num at this
    omega
  have h6 : (2 : ℕ) ^ (n - 1) ≤ 2 ^ 3 := Nat.pow_le_pow_right (by norm_num) h5
  have h7 : (2 : ℕ) ^ (n - 1) ≤ 8 := by norm_num at h6 ⊢; exact h6
  calc (2 : ℚ) ^ (n - 1) = ((2 ^ (n - 1) : ℕ) : ℚ) := by push_cast; ring
    _ ≤ ((8 : ℕ) : ℚ) := Nat.cast_le.mpr h7
    _ = 8 := by norm_num

theorem baseDelay_succ_ge (n : Nat) (hn : 1 ≤ n)
    (h : baseDelay n < 10000) :
    baseDelay n + 1000 ≤ baseDelay (n + 1) := by
  have hb := baseDelay_eq_of_lt_cap n h
  have h8 := pow_le_eight_of_lt_cap n h
  have hpow1 : (1 : ℚ) ≤ 2 ^ (n - 1) := one_le_pow₀ (by norm_num)
  have hsucc : n + 1 - 1 = n := rfl
  have hn' : n - 1 + 1 = n := Nat.succ_pred_eq_of_pos hn
  have hdouble : (2 : ℚ) ^ n = 2 ^ (n - 1) * 2 := by
    conv_lhs => rw [← hn']
    rw [pow_succ]
  rw [hb]
  unfold baseDelay
  rw [hsucc]
  apply le_min
  · rw [hdouble]; nlinarith
  · nlinarith

end Backoff

/-- C9: the unit-retry backoff delay for attempt `n` is
`min(1000 * 2^(n-1), 10000)` plus a jitter drawn uniformly from
`[0, 1000)`; the delay is always non-negative, and while the base delay
is below the 10000 ms cap the delay sequence is non-decreasing (any
jitter values included). -/
theorem c9_backoff_monotone (n : Nat) (j j' : ℚ) (hn : 1 ≤ n)
    (hj0 : 0 ≤ j) (hj1 : j < 1000) (hj'0 : 0 ≤ j') (hj'1 : j' < 1000)
    (hcap : Backoff.baseDelay n < 10000) :
    Backoff.delay n j = min (1000 * 2 ^ (n - 1)) 10000 + j ∧
    0 ≤ Backoff.delay n j ∧
    Backoff.delay n j ≤ Backoff.delay (n + 1) j' := by
  refine ⟨rfl, ?_, ?_⟩
  · have := Backoff.baseDelay_nonneg n
    unfold Backoff.delay
    linarith
  · have hstep := Backoff.baseDelay_succ_ge n hn hcap
    unfold Backoff.delay
    linarith

/-- Witness for C9 at attempt 1 with jitters 0 and 500. -/
theorem c9_witness :
    (1 : Nat) ≤ 1 ∧ Backoff.baseDelay 1 < 10000 ∧
    Backoff.delay 1 0 ≤ Backoff.delay 2 500 := by
  refine ⟨le_refl 1, ?_, ?_⟩
  · unfold Backoff.baseDelay; norm_num
  · exact (c9_backoff_monotone 1 0 500 (le_refl 1) (le_refl 0)
      (by norm_num) (by norm_num) (by norm_num)
      (by unfold Backoff.baseDelay; norm_num)).2.2

/-! ### Unit retry-loop lemmas -/

namespace Orchestrator

theorem runUnitGo_const_error (e : ProviderError) (m : Nat) :
    ∀ (fuel rc : Nat),
      runUnitGo (fun _ => Except.error e) m fuel rc = UnitOutcome.failed m := by
  intro fuel
  induction fuel with
  | zero => intro rc; rfl
  | succ fuel ih => intro rc; exact ih (rc + 1)

theorem runUnitGo_first_success (e : ProviderError) (resp : LLMResp)
    (k m : Nat) :
    ∀ (fuel rc : Nat), rc ≤ k → k < rc + fuel →
      runUnitGo (fun i => if i < k then Except.error e else Except.ok resp)
          m fuel rc =
        UnitOutcome.success resp.latencyMs (resp.totalTokens.getD 0) k := by
  intro fuel
  induction fuel with
  | zero => intro rc h1 h2; omega
  | succ fuel ih =>
      intro rc h1 h2
      by_cases hrc : rc = k
      · subst hrc
        simp [runUnitGo]
      · have hlt : rc < k := lt_of_le_of_ne h1 hrc
        have : runUnitGo
            (fun i => if i < k then Except.error e else Except.ok resp)
            m (fuel + 1) rc =
          runUnitGo (fun i => if i < k then Except.error e else Except.ok resp)
            m fuel (rc + 1) := by
          simp [runUnitGo, hlt]
        rw [this]
        exact ih (rc + 1) hlt (by omega)

end Orchestrator

/-- C8 (counterexample): with `retryAttempts = 3`, a unit whose provider
call fails with a rate-limit signal on attempts 0, 1 and 2 and succeeds
on attempt 3 ends as a success at `retryCount = 3` — the rate-limit
failures were retried at the unit level, whereas the claim says the
first one is recorded as a terminal failed unit with no retry; and a
unit that is rate-limited on every attempt is recorded failed only after
all `retryAttempts` retries. -/
theorem c8_rate_limit_is_unit_retried :
    Orchestrator.processPromptModelPair
        (fun i => if i < 3 then Except.error Orchestrator.ProviderError.rateLimit
          else Except.ok { latencyMs := 120, totalTokens := some 10 }) 3 =
      Orchestrator.UnitOutcome.success 120 10 3 ∧
    Orchestrator.processPromptModelPair
        (fun _ => Except.error Orchestrator.ProviderError.rateLimit) 3 =
      Orchestrator.UnitOutcome.failed 3 := by
  constructor
  · exact Orchestrator.runUnitGo_first_success
      Orchestrator.ProviderError.rateLimit
      { latencyMs := 120, totalTokens := some 10 } 3 3 4 0
      (by omega) (by omega)
  · exact Orchestrator.runUnitGo_const_error
      Orchestrator.ProviderError.rateLimit 3 4 0

/-- C8 (amended): the unit retry loop treats every provider failure
uniformly — rate-limit signals included: a unit first succeeding at
attempt `k ≤ retryAttempts` is recorded as a success at retry count `k`
whatever the preceding errors were, and a unit failing on every attempt
is recorded as a terminal failed unit only after `retryAttempts`
unit-level retries (with backoff between attempts). -/
theorem c8_uniform_retry (maxRetries k : Nat) (e : Orchestrator.ProviderError)
    (resp : Orchestrator.LLMResp) (hk : k ≤ maxRetries) :
    Orchestrator.processPromptModelPair
        (fun i => if i < k then Except.error e else Except.ok resp)
        maxRetries =
      Orchestrator.UnitOutcome.success resp.latencyMs
        (resp.totalTokens.getD 0) k ∧
    Orchestrator.processPromptModelPair (fun _ => Except.error e) maxRetries =
      Orchestrator.UnitOutcome.failed maxRetries := by
  constructor
  · exact Orchestrator.runUnitGo_first_success e resp k maxRetries
      (maxRetries + 1) 0 (Nat.zero_le k) (by omega)
  · exact Orchestrator.runUnitGo_const_error e maxRetries (maxRetries + 1) 0

/-- Witness for C8 at `retryAttempts = 3`, success at attempt 2, with a
rate-limit error on the earlier attempts. -/
theorem c8_witness :
    (2 : Nat) ≤ 3 ∧
    Orchestrator.processPromptModelPair
        (fun i => if i < 2 then Except.error Orchestrator.ProviderError.rateLimit
          else Except.ok { latencyMs := 50, totalTokens := none }) 3 =
      Orchestrator.UnitOutcome.success 50 0 2 :=
  ⟨by omega,
    (c8_uniform_retry 3 2 Orchestrator.ProviderError.rateLimit
      { latencyMs := 50, totalTokens := none } (by omega)).1⟩

/-! ### Circuit-breaker state-machine lemmas -/

namespace CircuitBreaker

theorem execute_not_open {E A : Type} (svc : Service) (name : String)
    (circuit : CircuitStats) (config : CircuitBreakerConfig) (now : Nat)
    (op : Except E A)
    (hc : svc.circuits.lookup name = some circuit)
    (hk : svc.configs.lookup name = some config)
    (hstate : circuit.state ≠ CircuitState.OPEN) :
    execute svc name now op = runOp svc name now op := by
  unfold execute
  rw [hc, hk]
  simp [hstate]

theorem onFailure_closed (svc : Service) (name : String)
    (circuit : CircuitStats) (config : CircuitBreakerConfig) (now : Nat)
    (hc : svc.circuits.lookup name = some circuit)
    (hk : svc.configs.lookup name = some config)
    (hstate : circuit.state = CircuitState.CLOSED) :
    onFailure svc name now =
      Service.mk
        (setAssoc svc.circuits name
          (if circuit.failures + 1 ≥ config.failureThreshold then
            { circuit with
              lastFailureTime := some now
              failures := circuit.failures + 1
              state := CircuitState.OPEN }
          else
            { circuit with
              lastFailureTime := some now
              failures := circuit.failures + 1 }))
        svc.configs := by
  unfold onFailure
  rw [hc, hk]
  have h1 : ({ circuit with lastFailureTime := some now } :
      CircuitStats).state = circuit.state := rfl
  simp only [h1, hstate]
  have h2 : now - (Option.getD (some now) 0) > config.windowSize ↔ False := by
    simp
  simp only [h2, if_false]
  by_cases hth : circuit.failures + 1 ≥ config.failureThreshold
  · simp [hth]
  · simp [hth]

theorem execute_closed_error_step {E : Type} (svc : Service) (name : String)
    (circuit : CircuitStats) (config : CircuitBreakerConfig) (now : Nat)
    (e : E)
    (hc : svc.circuits.lookup name = some circuit)
    (hk : svc.configs.lookup name = some config)
    (hstate : circuit.state = CircuitState.CLOSED) :
    (execute (A := Unit) svc name now (Except.error e)).svc =
      Service.mk
        (setAssoc svc.circuits name
          (if circuit.failures + 1 ≥ config.failureThreshold then
            { circuit with
              lastFailureTime := some now
              failures := circuit.failures + 1
              state := CircuitState.OPEN }
          else
            { circuit with
              lastFailureTime := some now
              failures := circuit.failures + 1 }))
        svc.configs := by
  rw [execute_not_open svc name circuit config now (Except.error e) hc hk
    (by rw [hstate]; intro hcontra; exact absurd hcontra (by decide))]
  show onFailure svc name now = _
  exact onFailure_closed svc name circuit config now hc hk hstate

theorem applyFailures_opens (name : String) :
    ∀ (times : List Nat) (svc : Service) (circuit : CircuitStats)
      (config : CircuitBreakerConfig),
      svc.circuits.lookup name = some circuit →
      svc.configs.lookup name = some config →
      circuit.state = CircuitState.CLOSED →
      circuit.failures + times.length = config.failureThreshold →
      times ≠ [] →
      getState (applyFailures svc name times) name = CircuitState.OPEN := by
  intro times
  induction times with
  | nil => intro svc circuit config _ _ _ _ hne; exact absurd rfl hne
  | cons t ts ih =>
      intro svc circuit config hc hk hstate hlen _
      cases ts with
      | nil =>
          have hth : circuit.failures + 1 ≥ config.failureThreshold := by
            simp at hlen; omega
          rw [applyFailures,
            execute_closed_error_step svc name circuit config t ()
              hc hk hstate]
          rw [if_pos hth]
          rw [applyFailures]
          simp [getState, lookup_setAssoc_self]
      | cons t' ts' =>
          have hth : ¬ circuit.failures + 1 ≥ config.failureThreshold := by
            simp at hlen; omega
          rw [applyFailures,
            execute_closed_error_step svc name circuit config t ()
              hc hk hstate]
          rw [if_neg hth]
          apply ih _
            { circuit with
              lastFailureTime := some t
              failures := circuit.failures + 1 } config
          · exact lookup_setAssoc_self _ _ _
          · exact hk
          · exact hstate
          · simp at hlen ⊢; omega
          · simp
end CircuitBreaker

/-- C2: for a registered circuit, (1) while the circuit is Open and the
open timeout has not elapsed since the last failure, `execute` fails
fast with the distinguishable circuit-open error, leaves the state
untouched and never invokes the operation; (2) in every other state it
invokes the operation and returns its result or error transparently;
(3) from a healthy Closed circuit, `failureThreshold` consecutive
failures at instants within the failure window leave the circuit
Open. -/
theorem c2_execute_contract {E A : Type} (svc : CircuitBreaker.Service)
    (name : String) (circuit : CircuitBreaker.CircuitStats)
    (config : CircuitBreaker.CircuitBreakerConfig) (now : Nat)
    (op : Except E A)
    (hc : svc.circuits.lookup name = some circuit)
    (hk : svc.configs.lookup name = some config) :
    (circuit.state = CircuitBreaker.CircuitState.OPEN →
      now - circuit.lastFailureTime.getD 0 < config.timeout →
      CircuitBreaker.execute svc name now op =
        ⟨CircuitBreaker.ExecResult.circuitOpen, svc, false⟩) ∧
    (circuit.state ≠ CircuitBreaker.CircuitState.OPEN →
      (CircuitBreaker.execute svc name now op).result =
          CircuitBreaker.transparentResult op ∧
        (CircuitBreaker.execute svc name now op).invoked = true) ∧
    (∀ times : List Nat,
      circuit.state = CircuitBreaker.CircuitState.CLOSED →
      circuit.failures = 0 →
      times.length = config.failureThreshold →
      times.Chain' (fun a b => a ≤ b ∧ b - a ≤ config.windowSize) →
      1 ≤ config.failureThreshold →
      CircuitBreaker.getState (CircuitBreaker.applyFailures svc name times)
        name = CircuitBreaker.CircuitState.OPEN) := by
  refine ⟨?_, ?_, ?_⟩
  · intro hopen hlt
    unfold CircuitBreaker.execute
    rw [hc, hk]
    simp [hopen, not_le.mpr hlt]
  · intro hne
    rw [CircuitBreaker.execute_not_open svc name circuit config now op
      hc hk hne]
    cases op with
    | ok a => exact ⟨rfl, rfl⟩
    | error e => exact ⟨rfl, rfl⟩
  · intro times hstate hzero hlen _ hth
    apply CircuitBreaker.applyFailures_opens name times svc circuit config
      hc hk hstate (by omega)
    intro hempty
    rw [hempty] at hlen
    simp at hlen
    omega

/-- Witness for C2: a freshly registered circuit (default threshold 5)
opened by five failures 10 ms apart, and a transparent successful call
on a closed circuit. -/
theorem c2_witness :
    ((CircuitBreaker.registerCircuit CircuitBreaker.Service.empty "svc"
        {}).circuits.lookup "svc" =
      some { failures := 0, successes := 0, lastFailureTime := none,
             state := CircuitBreaker.CircuitState.CLOSED }) ∧
    CircuitBreaker.getState
      (CircuitBreaker.applyFailures
        (CircuitBreaker.registerCircuit CircuitBreaker.Service.empty "svc" {})
        "svc" [0, 10, 20, 30, 40]) "svc" =
      CircuitBreaker.CircuitState.OPEN := by
  refine ⟨by decide, ?_⟩
  exact (c2_execute_contract (E := Unit) (A := Unit)
    (CircuitBreaker.registerCircuit CircuitBreaker.Service.empty "svc" {})
    "svc"
    { failures := 0, successes := 0, lastFailureTime := none,
      state := CircuitBreaker.CircuitState.CLOSED }
    { failureThreshold := 5, successThreshold := 2, timeout := 60000,
      windowSize := 120000 }
    0 (Except.ok ()) (by decide) (by decide)).2.2
    [0, 10, 20, 30, 40] rfl rfl (by decide)
    (by norm_num [List.chain'_cons]) (by decide)

/-! ### Dedup-gate lemmas -/

namespace Orchestrator

theorem pickLatest_some_mem :
    ∀ (l : List RunDoc) (b r : RunDoc),
      pickLatest (some b) l = some r → r = b ∨ r ∈ l := by
  intro l
  induction l with
  | nil =>
      intro b r h
      simp [pickLatest] at h
      exact Or.inl h.symm
  | cons x xs ih =>
      intro b r h
      rw [pickLatest] at h
      rcases ih _ r h with h' | h'
      · by_cases hlt : b.createdAt < x.createdAt
        · rw [if_pos hlt] at h'
          exact Or.inr (h' ▸ List.mem_cons_self x xs)
        · rw [if_neg hlt] at h'
          exact Or.inl h'
      · exact Or.inr (List.mem_cons_of_mem x h')

theorem pickLatest_some_ge :
    ∀ (l : List RunDoc) (b r : RunDoc),
      pickLatest (some b) l = some r →
      b.createdAt ≤ r.createdAt ∧ ∀ x ∈ l, x.createdAt ≤ r.createdAt := by
  intro l
  induction l with
  | nil =>
      intro b r h
      simp [pickLatest] at h
      subst h
      exact ⟨le_refl _, by simp⟩
  | cons x xs ih =>
      intro b r h
      rw [pickLatest] at h
      obtain ⟨hc, hrest⟩ := ih _ r h
      by_cases hlt : b.createdAt < x.createdAt
      · rw [if_pos hlt] at hc
        refine ⟨le_trans (le_of_lt hlt) hc, ?_⟩
        intro y hy
        rcases List.mem_cons.mp hy with hy | hy
        · exact hy ▸ hc
        · exact hrest y hy
      · rw [if_neg hlt] at hc
        refine ⟨hc, ?_⟩
        intro y hy
        rcases List.mem_cons.mp hy with hy | hy
        · exact hy ▸ le_trans (le_of_not_lt hlt) hc
        · exact hrest y hy

theorem pickLatest_some_isSome :
    ∀ (l : List RunDoc) (b : RunDoc), ∃ r, pickLatest (some b) l = some r := by
  intro l
  induction l with
  | nil => intro b; exact ⟨b, rfl⟩
  | cons x xs ih => intro b; exact ih _

theorem findByContentHash_spec (store : List RunDoc) (h : ContentKey)
    (r : RunDoc) (hr : findByContentHash store h = some r) :
    r ∈ store ∧ r.contentHash = h ∧ statusNonFailed r.status = true ∧
    ∀ x ∈ store, x.contentHash = h → statusNonFailed x.status = true →
      x.createdAt ≤ r.createdAt := by
  unfold findByContentHash at hr
  rcases hfl : store.filter
      (fun r => r.contentHash = h && statusNonFailed r.status) with _ | ⟨y, ys⟩
  · rw [hfl] at hr
    simp [pickLatest] at hr
  · rw [hfl, pickLatest] at hr
    have hmem : r ∈ store.filter
        (fun r => r.contentHash = h && statusNonFailed r.status) := by
      rw [hfl]
      rcases pickLatest_some_mem ys y r hr with h' | h'
      · exact h' ▸ List.mem_cons_self y ys
      · exact List.mem_cons_of_mem y h'
    have hprop := List.mem_filter.mp hmem
    have hpr : r.contentHash = h ∧ statusNonFailed r.status = true := by
      have := hprop.2
      simp at this
      exact this
    refine ⟨hprop.1, hpr.1, hpr.2, ?_⟩
    intro x hx hxh hxs
    have hxmem : x ∈ store.filter
        (fun r => r.contentHash = h && statusNonFailed r.status) := by
      apply List.mem_filter.mpr
      refine ⟨hx, ?_⟩
      simp [hxh, hxs]
    rw [hfl] at hxmem
    obtain ⟨hy, hys⟩ := pickLatest_some_ge ys y r hr
    rcases List.mem_cons.mp hxmem with hx' | hx'
    · exact hx' ▸ hy
    · exact hys x hx'

theorem findByContentHash_exists (store : List RunDoc) (h : ContentKey)
    (x : RunDoc) (hx : x ∈ store) (hxh : x.contentHash = h)
    (hxs : statusNonFailed x.status = true) :
    ∃ r, findByContentHash store h = some r := by
  unfold findByContentHash
  have hxmem : x ∈ store.filter
      (fun r => r.contentHash = h && statusNonFailed r.status) := by
    apply List.mem_filter.mpr
    exact ⟨hx, by simp [hxh, hxs]⟩
  rcases hfl : store.filter
      (fun r => r.contentHash = h && statusNonFailed r.status) with _ | ⟨y, ys⟩
  · rw [hfl] at hxmem
    simp at hxmem
  · rw [hfl]
    show ∃ r, pickLatest (some y) ys = some r
    exact pickLatest_some_isSome ys y

end Orchestrator

/-- C5: when the idempotency-key path found nothing, (1) if some batch
with the submission's content fingerprint is in a non-failed state and
was created less than 5 minutes (300000 ms) ago, `createRun` returns an
existing batch with that fingerprint, non-failed and fresh, with
`isNew = false`, leaving the store unchanged and scheduling nothing;
(2) if every non-failed fingerprint match is at least 5 minutes old —
in particular when the only matches are `failed` batches, of any age —
a new batch is created and scheduled. -/
theorem c5_content_fingerprint_dedup (store : List Orchestrator.RunDoc)
    (nextId now : Nat) (dto : Orchestrator.CreateRunDto)
    (hkey : Orchestrator.keyLookup store dto = none) :
    ((∃ x ∈ store, x.contentHash = Orchestrator.generateContentHash dto ∧
        Orchestrator.statusNonFailed x.status = true ∧
        now - x.createdAt < 300000) →
      (Orchestrator.createRun store nextId now dto).isNew = false ∧
      (Orchestrator.createRun store nextId now dto).scheduled = false ∧
      (Orchestrator.createRun store nextId now dto).store = store ∧
      (Orchestrator.createRun store nextId now dto).run ∈ store ∧
      (Orchestrator.createRun store nextId now dto).run.contentHash =
        Orchestrator.generateContentHash dto ∧
      Orchestrator.statusNonFailed
        (Orchestrator.createRun store nextId now dto).run.status = true ∧
      now - (Orchestrator.createRun store nextId now dto).run.createdAt <
        300000) ∧
    ((∀ x ∈ store, x.contentHash = Orchestrator.generateContentHash dto →
        Orchestrator.statusNonFailed x.status = true →
        300000 ≤ now - x.createdAt) →
      (Orchestrator.createRun store nextId now dto).isNew = true ∧
      (Orchestrator.createRun store nextId now dto).scheduled = true) := by
  constructor
  · rintro ⟨x, hx, hxh, hxs, hxf⟩
    obtain ⟨r, hr⟩ := Orchestrator.findByContentHash_exists store
      (Orchestrator.generateContentHash dto) x hx hxh hxs
    obtain ⟨hrmem, hrh, hrs, hrmax⟩ := Orchestrator.findByContentHash_spec
      store (Orchestrator.generateContentHash dto) r hr
    have hrf : now - r.createdAt < 300000 :=
      lt_of_le_of_lt (Nat.sub_le_sub_left (hrmax x hx hxh hxs) now) hxf
    have hres : Orchestrator.createRun store nextId now dto =
        { run := r, isNew := false, store := store, scheduled := false } := by
      unfold Orchestrator.createRun
      rw [hkey]
      simp only [hr]
      rw [if_pos hrf]
    rw [hres]
    exact ⟨rfl, rfl, rfl, hrmem, hrh, hrs, hrf⟩
  · intro hall
    rcases hdup : Orchestrator.findByContentHash store
        (Orchestrator.generateContentHash dto) with _ | r
    · have : Orchestrator.createRun store nextId now dto =
          Orchestrator.createNewRun store nextId now dto
            (Orchestrator.generateContentHash dto) := by
        unfold Orchestrator.createRun
        rw [hkey]
        simp only [hdup]
      rw [this]
      exact ⟨rfl, rfl⟩
    · obtain ⟨hrmem, hrh, hrs, _⟩ := Orchestrator.findByContentHash_spec
        store (Orchestrator.generateContentHash dto) r hdup
      have hstale : ¬ now - r.createdAt < 300000 :=
        not_lt.mpr (hall r hrmem hrh hrs)
      have : Orchestrator.createRun store nextId now dto =
          Orchestrator.createNewRun store nextId now dto
            (Orchestrator.generateContentHash dto) := by
        unfold Orchestrator.createRun
        rw [hkey]
        simp only [hdup]
        rw [if_neg hstale]
      rw [this]
      exact ⟨rfl, rfl⟩

/-- Witness for C5: a keyless submission finding a 1-minute-old running
batch with the same fingerprint. -/
theorem c5_witness :
    Orchestrator.keyLookup
      [ { id := 1, idempotencyKey := none
          contentHash := Orchestrator.generateContentHash
            { prompts := ["p"], brands := ["b"]
              models := [("openai", "gpt-4o-mini")], idempotencyKey := none }
          status := Orchestrator.RunStatus.running, createdAt := 0
          totalPrompts := 1, completedPrompts := 0, failedPrompts := 0 } ]
      { prompts := ["p"], brands := ["b"]
        models := [("openai", "gpt-4o-mini")], idempotencyKey := none } =
      none ∧
    (Orchestrator.createRun
      [ { id := 1, idempotencyKey := none
          contentHash := Orchestrator.generateContentHash
            { prompts := ["p"], brands := ["b"]
              models := [("openai", "gpt-4o-mini")], idempotencyKey := none }
          status := Orchestrator.RunStatus.running, createdAt := 0
          totalPrompts := 1, completedPrompts := 0, failedPrompts := 0 } ]
      2 60000
      { prompts := ["p"], brands := ["b"]
        models := [("openai", "gpt-4o-mini")], idempotencyKey := none }).isNew
      = false := by
  refine ⟨by decide, ?_⟩
  refine ((c5_content_fingerprint_dedup _ 2 60000 _ (by decide)).1 ?_).1
  refine ⟨_, List.mem_singleton_self _, rfl, by decide, by decide⟩

/-! ### Idempotency-key lemmas -/

namespace Orchestrator

theorem keyLookup_some_key (store : List RunDoc) (dto : CreateRunDto)
    (k : String) (hk : dto.idempotencyKey = some k) (hne : k ≠ "") :
    keyLookup store dto = findByIdempotencyKey store k := by
  unfold keyLookup
  rw [hk]
  simp [keyTruthy, hne]

theorem findByIdempotencyKey_none (store : List RunDoc) (k : String)
    (hnone : ∀ r ∈ store, r.idempotencyKey ≠ some k) :
    findByIdempotencyKey store k = none := by
  unfold findByIdempotencyKey
  apply List.find?_eq_none.mpr
  intro x hx
  simp [hnone x hx]

theorem findByIdempotencyKey_append_single (run : RunDoc) (k : String)
    (hk : run.idempotencyKey = some k) :
    ∀ store : List RunDoc, (∀ r ∈ store, r.idempotencyKey ≠ some k) →
      findByIdempotencyKey (store ++ [run]) k = some run := by
  intro store
  induction store with
  | nil =>
      intro _
      simp [findByIdempotencyKey, List.find?, hk]
  | cons x xs ih =>
      intro hnone
      have hx : x.idempotencyKey ≠ some k := hnone x (List.mem_cons_self _ _)
      show List.find? _ (x :: (xs ++ [run])) = some run
      rw [List.find?]
      rw [show (decide (x.idempotencyKey = some k)) = false by simp [hx]]
      exact ih (fun r hr => hnone r (List.mem_cons_of_mem x hr))

end Orchestrator

/-- C4 (counterexample): two concrete submissions refute the claim as
stated.  (1) The key check is a JS truthiness test, so the empty-string
key is skipped: a batch with key "" exists (and would be found by the
repository query), yet a resubmission carrying key "" — whose only
fingerprint match is that old `failed` batch — creates a new batch with
`isNew = true`.  (2) With a non-empty key "K", a first submission that
is answered by a fresh content-fingerprint duplicate never attaches "K"
to any batch, so resubmitting "K" after the freshness window creates a
different batch: the same key submitted twice yields ids 1 and then 3,
with `isNew = true` on the second call. -/
theorem c4_counterexample :
    (Orchestrator.findByIdempotencyKey
        [ { id := 1, idempotencyKey := some ""
            contentHash := Orchestrator.generateContentHash
              { prompts := ["p"], brands := [], models := [("o", "m")]
                idempotencyKey := some "" }
            status := Orchestrator.RunStatus.failed, createdAt := 0
            totalPrompts := 1, completedPrompts := 0, failedPrompts := 1 } ]
        "" ≠ none ∧
      (Orchestrator.createRun
        [ { id := 1, idempotencyKey := some ""
            contentHash := Orchestrator.generateContentHash
              { prompts := ["p"], brands := [], models := [("o", "m")]
                idempotencyKey := some "" }
            status := Orchestrator.RunStatus.failed, createdAt := 0
            totalPrompts := 1, completedPrompts := 0, failedPrompts := 1 } ]
        2 400000
        { prompts := ["p"], brands := [], models := [("o", "m")]
          idempotencyKey := some "" }).isNew = true ∧
      (Orchestrator.createRun
        [ { id := 1, idempotencyKey := some ""
            contentHash := Orchestrator.generateContentHash
              { prompts := ["p"], brands := [], models := [("o", "m")]
                idempotencyKey := some "" }
            status := Orchestrator.RunStatus.failed, createdAt := 0
            totalPrompts := 1, completedPrompts := 0, failedPrompts := 1 } ]
        2 400000
        { prompts := ["p"], brands := [], models := [("o", "m")]
          idempotencyKey := some "" }).run.id = 2) ∧
    ((Orchestrator.createRun
        [ { id := 1, idempotencyKey := none
            contentHash := Orchestrator.generateContentHash
              { prompts := ["p"], brands := [], models := [("o", "m")]
                idempotencyKey := some "K" }
            status := Orchestrator.RunStatus.pending, createdAt := 0
            totalPrompts := 1, completedPrompts := 0, failedPrompts := 0 } ]
        2 100000
        { prompts := ["p"], brands := [], models := [("o", "m")]
          idempotencyKey := some "K" }).run.id = 1 ∧
      (Orchestrator.createRun
        [ { id := 1, idempotencyKey := none
            contentHash := Orchestrator.generateContentHash
              { prompts := ["p"], brands := [], models := [("o", "m")]
                idempotencyKey := some "K" }
            status := Orchestrator.RunStatus.pending, createdAt := 0
            totalPrompts := 1, completedPrompts := 0, failedPrompts := 0 } ]
        2 100000
        { prompts := ["p"], brands := [], models := [("o", "m")]
          idempotencyKey := some "K" }).isNew = false ∧
      (Orchestrator.createRun
        (Orchestrator.createRun
          [ { id := 1, idempotencyKey := none
              contentHash := Orchestrator.generateContentHash
                { prompts := ["p"], brands := [], models := [("o", "m")]
                  idempotencyKey := some "K" }
              status := Orchestrator.RunStatus.pending, createdAt := 0
              totalPrompts := 1, completedPrompts := 0, failedPrompts := 0 } ]
          2 100000
          { prompts := ["p"], brands := [], models := [("o", "m")]
            idempotencyKey := some "K" }).store
        3 400000
        { prompts := ["p"], brands := [], models := [("o", "m")]
          idempotencyKey := some "K" }).run.id = 3 ∧
      (Orchestrator.createRun
        (Orchestrator.createRun
          [ { id := 1, idempotencyKey := none
              contentHash := Orchestrator.generateContentHash
                { prompts := ["p"], brands := [], models := [("o", "m")]
                  idempotencyKey := some "K" }
              status := Orchestrator.RunStatus.pending, createdAt := 0
              totalPrompts := 1, completedPrompts := 0, failedPrompts := 0 } ]
          2 100000
          { prompts := ["p"], brands := [], models := [("o", "m")]
            idempotencyKey := some "K" }).store
        3 400000
        { prompts := ["p"], brands := [], models := [("o", "m")]
          idempotencyKey := some "K" }).isNew = true) := by
  decide

/-- C4 (amended): for a non-empty idempotency key, if a batch with that
exact key exists (any status) `createRun` returns it with
`isNew = false`, unchanged store and no scheduling; and when the first
submission with that key actually created its batch (no fresh
content-fingerprint duplicate pre-empted it), a second submission with
the same key returns the same batch identifier with `isNew = false` and
schedules nothing. -/
theorem c4_idempotency_key (store : List Orchestrator.RunDoc)
    (nextId now nextId2 now2 : Nat) (dto : Orchestrator.CreateRunDto)
    (k : String) (hk : dto.idempotencyKey = some k) (hne : k ≠ "") :
    (∀ ex, Orchestrator.findByIdempotencyKey store k = some ex →
      Orchestrator.createRun store nextId now dto =
        { run := ex, isNew := false, store := store, scheduled := false }) ∧
    ((∀ r ∈ store, r.idempotencyKey ≠ some k) →
      (Orchestrator.createRun store nextId now dto).isNew = true →
      ((Orchestrator.createRun
          (Orchestrator.createRun store nextId now dto).store nextId2 now2
          dto).run.id =
        (Orchestrator.createRun store nextId now dto).run.id ∧
      (Orchestrator.createRun
          (Orchestrator.createRun store nextId now dto).store nextId2 now2
          dto).isNew = false ∧
      (Orchestrator.createRun
          (Orchestrator.createRun store nextId now dto).store nextId2 now2
          dto).scheduled = false)) := by
  constructor
  · intro ex hex
    unfold Orchestrator.createRun
    rw [Orchestrator.keyLookup_some_key store dto k hk hne, hex]
  · intro hnone hIsNew
    have hkeynone : Orchestrator.keyLookup store dto = none := by
      rw [Orchestrator.keyLookup_some_key store dto k hk hne]
      exact Orchestrator.findByIdempotencyKey_none store k hnone
    have hfirst : Orchestrator.createRun store nextId now dto =
        Orchestrator.createNewRun store nextId now dto
          (Orchestrator.generateContentHash dto) := by
      rcases hdup : Orchestrator.findByContentHash store
          (Orchestrator.generateContentHash dto) with _ | r
      · unfold Orchestrator.createRun
        rw [hkeynone]
        simp only [hdup]
      · by_cases hfr : now - r.createdAt < 300000
        · exfalso
          have hfalse : (Orchestrator.createRun store nextId now dto).isNew =
              false := by
            unfold Orchestrator.createRun
            rw [hkeynone]
            simp only [hdup]
            rw [if_pos hfr]
          rw [hfalse] at hIsNew
          exact absurd hIsNew (by decide)
        · unfold Orchestrator.createRun
          rw [hkeynone]
          simp only [hdup]
          rw [if_neg hfr]
    have hrunkey : (Orchestrator.createNewRun store nextId now dto
        (Orchestrator.generateContentHash dto)).run.idempotencyKey =
        some k := by
      simp [Orchestrator.createNewRun, hk]
    have hsecond : Orchestrator.createRun
        (Orchestrator.createRun store nextId now dto).store nextId2 now2 dto =
        { run := (Orchestrator.createRun store nextId now dto).run
          isNew := false
          store := (Orchestrator.createRun store nextId now dto).store
          scheduled := false } := by
      rw [hfirst]
      unfold Orchestrator.createRun
      rw [Orchestrator.keyLookup_some_key _ dto k hk hne]
      have hstore : (Orchestrator.createNewRun store nextId now dto
          (Orchestrator.generateContentHash dto)).store =
          store ++ [(Orchestrator.createNewRun store nextId now dto
            (Orchestrator.generateContentHash dto)).run] := rfl
      rw [hstore,
        Orchestrator.findByIdempotencyKey_append_single _ k hrunkey
          store hnone]
    rw [hsecond]
    exact ⟨rfl, rfl, rfl⟩

/-- Witness for C4 at key "K": a first submission against an empty
store creates the batch; resubmitting the same dto returns the same
identifier with `isNew = false`. -/
theorem c4_witness :
    ({ prompts := ["p"], brands := [], models := [("o", "m")]
       idempotencyKey := some "K" } :
        Orchestrator.CreateRunDto).idempotencyKey = some "K" ∧
    (Orchestrator.createRun
        (Orchestrator.createRun [] 1 0
          { prompts := ["p"], brands := [], models := [("o", "m")]
            idempotencyKey := some "K" }).store 2 600000
        { prompts := ["p"], brands := [], models := [("o", "m")]
          idempotencyKey := some "K" }).run.id =
      (Orchestrator.createRun [] 1 0
        { prompts := ["p"], brands := [], models := [("o", "m")]
          idempotencyKey := some "K" }).run.id ∧
    (Orchestrator.createRun
        (Orchestrator.createRun [] 1 0
          { prompts := ["p"], brands := [], models := [("o", "m")]
            idempotencyKey := some "K" }).store 2 600000
        { prompts := ["p"], brands := [], models := [("o", "m")]
          idempotencyKey := some "K" }).isNew = false := by
  refine ⟨rfl, ?_⟩
  have h := (c4_idempotency_key [] 1 0 2 600000
    { prompts := ["p"], brands := [], models := [("o", "m")]
      idempotencyKey := some "K" } "K" rfl (by decide)).2
    (by intro r hr; simp at hr) (by decide)
  exact ⟨h.1, h.2.1⟩

/-! ### Fan-out and finalization lemmas -/

namespace Orchestrator

theorem length_mkUnits {α β : Type} :
    ∀ (ps : List α) (ms : List β),
      (mkUnits ps ms).length = ps.length * ms.length := by
  intro ps
  induction ps with
  | nil => intro ms; simp [mkUnits]
  | cons p ps ih =>
      intro ms
      show (ms.map (fun m => (p, m)) ++ mkUnits ps ms).length = _
      rw [List.length_append, List.length_map, ih]
      simp [Nat.succ_mul, Nat.add_comm]

theorem finalize_counts (outcomes : List UnitOutcome) (durationMs : Nat)
    (models : List (String × String)) :
    (finalizeRun outcomes durationMs models).completedPrompts +
      (finalizeRun outcomes durationMs models).failedPrompts =
      outcomes.length := by
  show (outcomes.filter UnitOutcome.isSuccess).length +
    (outcomes.filter (fun o => !o.isSuccess)).length = outcomes.length
  exact (List.length_eq_length_filter_add UnitOutcome.isSuccess).symm

theorem createRun_isNew_eq (store : List RunDoc) (nextId now : Nat)
    (dto : CreateRunDto)
    (h : (createRun store nextId now dto).isNew = true) :
    createRun store nextId now dto =
      createNewRun store nextId now dto (generateContentHash dto) := by
  rcases hkl : keyLookup store dto with _ | ex
  · rcases hdup : findByContentHash store (generateContentHash dto)
        with _ | r
    · unfold createRun
      rw [hkl]
      simp only [hdup]
    · by_cases hfr : now - r.createdAt < 300000
      · exfalso
        have hfalse : (createRun store nextId now dto).isNew = false := by
          unfold createRun
          rw [hkl]
          simp only [hdup]
          rw [if_pos hfr]
        rw [hfalse] at h
        exact absurd h (by decide)
      · unfold createRun
        rw [hkl]
        simp only [hdup]
        rw [if_neg hfr]
  · exfalso
    have hfalse : (createRun store nextId now dto).isNew = false := by
      unfold createRun
      rw [hkl]
    rw [hfalse] at h
    exact absurd h (by decide)

end Orchestrator

/-- C6: along the whole persisted lifecycle of a batch —
created `pending` with zero counters, `running`, then the terminal
update — `completedPrompts + failedPrompts` never exceeds
`totalPrompts` and equals it at the terminal snapshot; and the
`totalPrompts` a newly created batch is fixed with is
`|prompts| * |models|`. -/
theorem c6_counter_invariant (prompts : List String)
    (models : List (String × String))
    (behavior : String × (String × String) → Nat →
      Except Orchestrator.ProviderError Orchestrator.LLMResp)
    (maxRetries durationMs : Nat) :
    (∀ snap ∈ Orchestrator.runLifecycle prompts models behavior maxRetries
        durationMs,
      snap.completedPrompts + snap.failedPrompts ≤ snap.totalPrompts ∧
      (snap.status.isTerminal = true →
        snap.completedPrompts + snap.failedPrompts = snap.totalPrompts)) ∧
    (∀ (store : List Orchestrator.RunDoc) (nextId now : Nat)
        (dto : Orchestrator.CreateRunDto),
      (Orchestrator.createRun store nextId now dto).isNew = true →
      (Orchestrator.createRun store nextId now dto).run.totalPrompts =
        dto.prompts.length * dto.models.length) := by
  constructor
  · intro snap hsnap
    have hkey : (Orchestrator.finalizeRun
          ((Orchestrator.mkUnits prompts models).map
            (fun u => Orchestrator.processPromptModelPair (behavior u)
              maxRetries)) durationMs models).completedPrompts +
        (Orchestrator.finalizeRun
          ((Orchestrator.mkUnits prompts models).map
            (fun u => Orchestrator.processPromptModelPair (behavior u)
              maxRetries)) durationMs models).failedPrompts =
        prompts.length * models.length := by
      rw [Orchestrator.finalize_counts, List.length_map,
        Orchestrator.length_mkUnits]
    simp only [Orchestrator.runLifecycle, List.mem_cons,
      List.not_mem_nil, or_false] at hsnap
    rcases hsnap with h | h | h
    · subst h
      refine ⟨Nat.zero_le _, fun ht => ?_⟩
      simp [Orchestrator.RunStatus.isTerminal] at ht
    · subst h
      refine ⟨Nat.zero_le _, fun ht => ?_⟩
      simp [Orchestrator.RunStatus.isTerminal] at ht
    · subst h
      exact ⟨le_of_eq hkey, fun _ => hkey⟩
  · intro store nextId now dto h
    rw [Orchestrator.createRun_isNew_eq store nextId now dto h]
    rfl

namespace Orchestrator

theorem latenciesOf_length :
    ∀ outcomes : List UnitOutcome,
      (latenciesOf outcomes).length =
        (outcomes.filter UnitOutcome.isSuccess).length := by
  intro outcomes
  induction outcomes with
  | nil => rfl
  | cons o os ih =>
      cases o with
      | success l t rc =>
          show (latenciesOf os).length + 1 = _
          rw [ih]
          rfl
      | failed rc =>
          show (latenciesOf os).length = _
          rw [ih]
          rfl

end Orchestrator

/-- C7: once every unit has settled, the terminal progress update sets
the batch status to `completed` exactly when no unit failed, to `failed`
exactly when every unit failed, and to `partial` otherwise; it writes
`completedPrompts`/`failedPrompts` as the success/failure counts, and
the metrics record carries the run duration, the rounded mean latency
over the successful units (one latency entry per successful unit),
the summed tokens of the successful units, and the cost estimate from
the per-model rate table. -/
theorem c7_terminal_status_metrics (outcomes : List Orchestrator.UnitOutcome)
    (durationMs : Nat) (models : List (String × String))
    (h : outcomes ≠ []) :
    ((Orchestrator.finalizeRun outcomes durationMs models).status =
        Orchestrator.RunStatus.completed ↔
      (outcomes.filter (fun o => !o.isSuccess)).length = 0) ∧
    ((Orchestrator.finalizeRun outcomes durationMs models).status =
        Orchestrator.RunStatus.failed ↔
      (outcomes.filter (fun o => !o.isSuccess)).length = outcomes.length) ∧
    ((Orchestrator.finalizeRun outcomes durationMs models).status =
        Orchestrator.RunStatus.partialRun ↔
      (0 < (outcomes.filter (fun o => !o.isSuccess)).length ∧
        (outcomes.filter (fun o => !o.isSuccess)).length <
          outcomes.length)) ∧
    (Orchestrator.finalizeRun outcomes durationMs models).completedPrompts =
      (outcomes.filter Orchestrator.UnitOutcome.isSuccess).length ∧
    (Orchestrator.finalizeRun outcomes durationMs models).failedPrompts =
      (outcomes.filter (fun o => !o.isSuccess)).length ∧
    (Orchestrator.latenciesOf outcomes).length =
      (outcomes.filter Orchestrator.UnitOutcome.isSuccess).length ∧
    (Orchestrator.finalizeRun outcomes durationMs models).metrics =
      { totalDurationMs := durationMs
        avgLatencyMs := round
          (if 0 < (Orchestrator.latenciesOf outcomes).length then
            (((Orchestrator.latenciesOf outcomes).map (Nat.cast)).sum : ℚ) /
              ((Orchestrator.latenciesOf outcomes).length : ℚ)
          else 0)
        totalTokensUsed := Orchestrator.totalTokensOf outcomes
        estimatedCost := Orchestrator.estimateCost
          (Orchestrator.totalTokensOf outcomes) models } := by
  have hN : 0 < outcomes.length := List.length_pos.mpr h
  have hFle : (outcomes.filter (fun o => !o.isSuccess)).length ≤
      outcomes.length := List.length_filter_le _ _
  have hstatus : (Orchestrator.finalizeRun outcomes durationMs models).status =
      (if (outcomes.filter (fun o => !o.isSuccess)).length = 0 then
        Orchestrator.RunStatus.completed
      else if (outcomes.filter (fun o => !o.isSuccess)).length <
          outcomes.length then Orchestrator.RunStatus.partialRun
      else Orchestrator.RunStatus.failed) := rfl
  refine ⟨?_, ?_, ?_, rfl, rfl, Orchestrator.latenciesOf_length outcomes, rfl⟩
  · rw [hstatus]
    split_ifs with h1 h2
    · simp [h1]
    · simp [h1]
    · simp [h1]
  · rw [hstatus]
    split_ifs with h1 h2
    · constructor
      · intro hx
        exact absurd hx (by decide)
      · intro hx
        omega
    · constructor
      · intro hx
        exact absurd hx (by decide)
      · intro hx
        omega
    · constructor
      · intro _
        omega
      · intro _
        rfl
  · rw [hstatus]
    split_ifs with h1 h2
    · constructor
      · intro hx
        exact absurd hx (by decide)
      · intro hx
        omega
    · constructor
      · intro _
        exact ⟨by omega, h2⟩
      · intro _
        rfl
    · constructor
      · intro hx
        exact absurd hx (by decide)
      · intro hx
        omega

/-- Witness for C7: one successful unit (latency 100 ms, 7 tokens) and
one failed unit yield a `partial` batch with counters 1/1. -/
theorem c7_witness :
    ([Orchestrator.UnitOutcome.success 100 7 0,
      Orchestrator.UnitOutcome.failed 3] ≠
        ([] : List Orchestrator.UnitOutcome)) ∧
    (Orchestrator.finalizeRun
        [Orchestrator.UnitOutcome.success 100 7 0,
          Orchestrator.UnitOutcome.failed 3] 5000
        [("o", "m")]).status = Orchestrator.RunStatus.partialRun :=
  ⟨by simp,
    ((c7_terminal_status_metrics
      [Orchestrator.UnitOutcome.success 100 7 0,
        Orchestrator.UnitOutcome.failed 3] 5000 [("o", "m")]
      (by simp)).2.2.1).mpr (by decide)⟩

/-- Witness for C1 (amended) at two denials then an admission. -/
theorem c1_witness :
    RateLimiter.scheduleWithDistributedLimit true true [false, false, true] 5 =
      RateLimiter.SchedOutcome.ran [1000, 1000] 5 :=
  (c1_fixed_backoff_unbounded_retry 2 5).1

/-- Witness for C6: a 1-prompt, 1-model batch created against an empty
store is fixed with `totalPrompts = 1`. -/
theorem c6_witness :
    (Orchestrator.createRun [] 1 0
      { prompts := ["p"], brands := ["b"], models := [("o", "m")]
        idempotencyKey := none }).isNew = true ∧
    (Orchestrator.createRun [] 1 0
      { prompts := ["p"], brands := ["b"], models := [("o", "m")]
        idempotencyKey := none }).run.totalPrompts = 1 :=
  ⟨by decide,
    (c6_counter_invariant ["p"] [("o", "m")]
      (fun _ _ => Except.error Orchestrator.ProviderError.rateLimit) 3
      1000).2 [] 1 0
      { prompts := ["p"], brands := ["b"], models := [("o", "m")]
        idempotencyKey := none } (by decide)⟩
